import Mathlib

/-
  Verification development for the RespondentPro cache / identity-resolution
  subsystem.  The definitions below are a shallow embedding of the Python
  modules src/web/cache_manager.py, src/web/hidden_projects_tracker.py and
  src/web/cache_refresh.py.  Firestore collections are modelled as
  association lists keyed by document id; datetimes are modelled as integer
  UTC instants counted in seconds; Python exceptions raised by the backend
  user-store lookups are modelled with Except.
-/

namespace RespondentPro

/-! ## Users collection and the identity resolver (cache_manager.resolve_user_id_for_query) -/

/-- A document of the `users` collection.  `firebase_uid` is the
cross-reference field a legacy record carries for the new canonical id;
`projects_processed_count` is the denormalized counter maintained by
`log_hidden_project`. -/
structure UserDoc where
  firebase_uid : Option String := none
  projects_processed_count : Int := 0
  last_processed_at : Option Int := none
deriving Repr, DecidableEq

/-- The `users` collection.  `docs` is keyed by document id.  The two error
flags model a backend exception raised by the corresponding lookup
(`document(...).get()` respectively the `firebase_uid` field query); the
Python code catches these with a try/except. -/
structure UserStore where
  docs : List (String × UserDoc) := []
  docGetErr : Bool := false
  queryErr : Bool := false
deriving Repr, DecidableEq

/-- `users_collection.document(k).get()`: point lookup by document id. -/
def UserStore.docGet (s : UserStore) (k : String) : Except Unit (Option UserDoc) :=
  if s.docGetErr then .error () else .ok ((s.docs.find? (fun p => p.1 = k)).map Prod.snd)

/-- The `where(firebase_uid == v)` query (the code takes the first result of
a limit-1 stream). -/
def UserStore.queryFirebaseUid (s : UserStore) (v : String) :
    Except Unit (List (String × UserDoc)) :=
  if s.queryErr then .error () else .ok (s.docs.filter (fun p => p.2.firebase_uid = some v))

/-- cache_manager.resolve_user_id_for_query.  The caller-supplied id is
returned as the id to use on every branch; the second component is the old
document id when a legacy record is discovered.  `none` for the store models
`users_collection` being unavailable. -/
def resolve_user_id_for_query (store : Option UserStore) (user_id : String) :
    String × Option String :=
  match store with
  | none => (user_id, none)
  | some s =>
    match s.docGet user_id with
    | .error _ => (user_id, none)
    | .ok (some _) => (user_id, none)
    | .ok none =>
      match s.queryFirebaseUid user_id with
      | .error _ => (user_id, none)
      | .ok [] => (user_id, none)
      | .ok (d :: _) => (user_id, some d.1)

theorem resolve_fst (store : Option UserStore) (user_id : String) :
    (resolve_user_id_for_query store user_id).1 = user_id := by
  unfold resolve_user_id_for_query
  cases store with
  | none => rfl
  | some s =>
    cases h : s.docGet user_id with
    | error e => simp [h]
    | ok o =>
      cases o with
      | some u => simp [h]
      | none =>
        cases hq : s.queryFirebaseUid user_id with
        | error e => simp [h, hq]
        | ok l => cases l <;> simp [h, hq]

/-! ## Project cache store (cache_manager.py) -/

/-- A stored timestamp value: a timezone-aware datetime, a naive datetime
(assumed UTC by the code), or a non-datetime value.  The carried integer is
the UTC instant in seconds. -/
inductive TsVal
  | dtAware (t : Int)
  | dtNaive (t : Int)
  | other
deriving Repr, DecidableEq

/-- A raw upstream project record.  `id` is the value of the `id` field:
`none` models both an absent key and an explicit None (Python
`project.get(id)` returns None for either); `payload` stands for the
remaining opaque upstream fields. -/
structure Project where
  id : Option String := none
  payload : Nat := 0
deriving Repr, DecidableEq

/-- Python `str` applied to the value of `project.get(id)`:
`str(None) = "None"` (a non-empty string), and a string id is unchanged. -/
def strOfId : Option String → String
  | none => "None"
  | some s => s

/-- The parent document of a projects_cache entry together with its
`projects` sub-collection (child documents keyed by document id). -/
structure CacheEntry where
  user_id : String := ""
  total_count : Int := 0
  cached_at : Option TsVal := none
  last_updated : Option TsVal := none
  projects : List (String × Project) := []
deriving Repr, DecidableEq

/-- The projects_cache collection, keyed by parent document id. -/
abbrev ProjectsCache := List (String × CacheEntry)

/-- Point lookup of a parent document. -/
def getDoc (c : ProjectsCache) (k : String) : Option CacheEntry :=
  (c.find? (fun p => p.1 = k)).map Prod.snd

/-- Firestore `set`: overwrite the document at key `k`, creating it if
absent. -/
def setDoc (c : ProjectsCache) (k : String) (e : CacheEntry) : ProjectsCache :=
  if c.any (fun p => p.1 = k) then c.map (fun p => if p.1 = k then (k, e) else p)
  else c ++ [(k, e)]

/-- Writing a child document into the `projects` sub-collection
(overwrite-or-insert at the given document key). -/
def childSet (l : List (String × Project)) (k : String) (p : Project) :
    List (String × Project) :=
  if l.any (fun q => q.1 = k) then l.map (fun q => if q.1 = k then (k, p) else q)
  else l ++ [(k, p)]

/-- Deleting a child document (a delete of a missing document is a no-op). -/
def childDelete (l : List (String × Project)) (k : String) : List (String × Project) :=
  l.filter (fun q => q.1 ≠ k)

/-- cache_manager.is_cache_fresh.  `now` is the current UTC instant in
seconds; `max_age_hours` is compared after conversion to seconds, mirroring
`age < timedelta(hours=max_age_hours)`.  A missing parent document, a
missing `cached_at`, or a non-datetime `cached_at` yields false; a naive
datetime is given tzinfo UTC, so it is compared exactly like an aware one. -/
def is_cache_fresh (store : Option UserStore) (c : ProjectsCache) (user_id : String)
    (max_age_hours : Int) (now : Int) : Bool :=
  match getDoc c ((resolve_user_id_for_query store user_id).1) with
  | none => false
  | some e =>
    match e.cached_at with
    | none => false
    | some (.dtAware t) => decide (now - t < max_age_hours * 3600)
    | some (.dtNaive t) => decide (now - t < max_age_hours * 3600)
    | some .other => false

/-- The dictionary returned by cache_manager.get_cached_projects. -/
structure GetProjectsResult where
  projects : List Project
  cached_at : Option TsVal
  total_count : Int
deriving Repr, DecidableEq

/-- cache_manager.get_cached_projects: reads the parent document and all
child documents; the returned `total_count` is the live child count, not the
stored field. -/
def get_cached_projects (store : Option UserStore) (c : ProjectsCache)
    (user_id : String) : Option GetProjectsResult :=
  match getDoc c ((resolve_user_id_for_query store user_id).1) with
  | none => none
  | some e =>
    some { projects := e.projects.map Prod.snd
           cached_at := e.cached_at
           total_count := (e.projects.map Prod.snd).length }

/-- The child collection produced by the project-writing loop of
refresh_project_cache: each project is written under the document key
`str(project.get(id))`, and is skipped exactly when that string is empty. -/
def writeProjects (projects : List Project) : List (String × Project) :=
  projects.foldl (fun acc p => if strOfId p.id = "" then acc else childSet acc (strOfId p.id) p) []

/-- cache_manager.refresh_project_cache: sets the parent document metadata
(with `total_count := len(projects)` and fresh timestamps), deletes every
existing child document, then writes each input project under the document
key `str(project.get(id))`, skipping a project exactly when that string is
empty.  The batching of the mutations (500-operation chunks) has no
observable effect on the final state and is not represented; `db` is
modelled as available.  The `total_count` argument is accepted but unused,
as in the source. -/
def refresh_project_cache (store : Option UserStore) (c : ProjectsCache)
    (user_id : String) (projects : List Project) (total_count : Int) (now : Int) :
    Bool × ProjectsCache :=
  (true, setDoc c ((resolve_user_id_for_query store user_id).1)
    { user_id := (resolve_user_id_for_query store user_id).1
      total_count := ((projects.length : Int))
      cached_at := some (.dtAware now)
      last_updated := some (.dtAware now)
      projects := writeProjects projects })

/-- The dictionary returned by cache_manager.get_cache_stats. -/
structure CacheStats where
  exists_ : Bool
  cached_at : Option TsVal
  last_updated : Option TsVal
  total_count : Int
deriving Repr, DecidableEq

/-- cache_manager.get_cache_stats: the returned `total_count` is an exact
live recount of the child sub-collection. -/
def get_cache_stats (store : Option UserStore) (c : ProjectsCache) (user_id : String) :
    CacheStats :=
  match getDoc c ((resolve_user_id_for_query store user_id).1) with
  | none => { exists_ := false, cached_at := none, last_updated := none, total_count := 0 }
  | some e =>
    { exists_ := true
      cached_at := e.cached_at
      last_updated := e.last_updated
      total_count := ((e.projects.length : Int)) }

/-- The child collection after the delete loop of
mark_projects_hidden_in_cache (one idempotent delete per listed id). -/
def deleteChildren (l : List (String × Project)) (ids : List String) :
    List (String × Project) :=
  ids.foldl (fun acc pid => childDelete acc pid) l

/-- cache_manager.mark_projects_hidden_in_cache: empty input returns true
with no change; a missing parent document returns false; otherwise each id
is deleted from the child sub-collection (idempotent delete, batched in the
source with no observable effect) and the parent document is updated with
`total_count := max(0, stored_count - len(project_ids))` and a fresh
`last_updated`. -/
def mark_projects_hidden_in_cache (store : Option UserStore) (c : ProjectsCache)
    (user_id : String) (project_ids : List String) (now : Int) : Bool × ProjectsCache :=
  if project_ids = [] then (true, c)
  else
    match getDoc c ((resolve_user_id_for_query store user_id).1) with
    | none => (false, c)
    | some e =>
      (true, setDoc c ((resolve_user_id_for_query store user_id).1)
        { e with total_count := max 0 (e.total_count - (project_ids.length : Int)),
                 last_updated := some (.dtAware now),
                 projects := deleteChildren e.projects project_ids })

/-! ## Basic store lemmas -/

theorem find?_map_set_of_any (k : String) (e : CacheEntry) :
    ∀ c : ProjectsCache, c.any (fun p => p.1 = k) = true →
      (c.map (fun p => if p.1 = k then (k, e) else p)).find? (fun p => p.1 = k) = some (k, e) := by
  intro c h
  induction c with
  | nil => simp at h
  | cons hd t ih =>
    by_cases hk : hd.1 = k
    · simp [hk]
    · have ht : t.any (fun p => p.1 = k) = true := by
        simpa [List.any_cons, hk] using h
      simp only [List.map_cons, if_neg hk]
      rw [List.find?_cons_of_neg _ (by simpa using hk)]
      exact ih ht

theorem find?_append_single_of_not_any (k : String) (e : CacheEntry) :
    ∀ c : ProjectsCache, c.any (fun p => p.1 = k) = false →
      ((c ++ [(k, e)]).find? (fun p => p.1 = k)) = some (k, e) := by
  intro c h
  induction c with
  | nil => simp
  | cons hd t ih =>
    simp only [List.any_cons, Bool.or_eq_false_iff] at h
    simp only [List.cons_append]
    rw [List.find?_cons_of_neg _ (by simpa using h.1)]
    exact ih h.2

theorem getDoc_setDoc (c : ProjectsCache) (k : String) (e : CacheEntry) :
    getDoc (setDoc c k e) k = some e := by
  unfold getDoc setDoc
  cases hb : c.any (fun p => p.1 = k) with
  | true =>
    rw [if_pos rfl, find?_map_set_of_any k e c hb]
    rfl
  | false =>
    rw [if_neg (by simp), find?_append_single_of_not_any k e c hb]
    rfl

theorem childSet_of_not_any (l : List (String × Project)) (k : String) (p : Project)
    (h : l.any (fun q => q.1 = k) = false) : childSet l k p = l ++ [(k, p)] := by
  unfold childSet
  rw [if_neg (by simp [h])]

/-- Writing a list of projects with pairwise-distinct non-empty string keys,
none of which is already present, appends them in order. -/
theorem foldl_childSet_append (projects : List Project) :
    ∀ acc : List (String × Project),
      (∀ p ∈ projects, strOfId p.id ≠ "") →
      (∀ p ∈ projects, acc.any (fun q => q.1 = strOfId p.id) = false) →
      (projects.map (fun p => strOfId p.id)).Nodup →
      projects.foldl
          (fun acc p => if strOfId p.id = "" then acc else childSet acc (strOfId p.id) p) acc
        = acc ++ projects.map (fun p => (strOfId p.id, p)) := by
  induction projects with
  | nil => intro acc _ _ _; simp
  | cons p rest ih =>
    intro acc hne hany hnodup
    have hp : strOfId p.id ≠ "" := hne p (by simp)
    simp only [List.foldl_cons, if_neg hp]
    rw [childSet_of_not_any acc (strOfId p.id) p (hany p (by simp))]
    rw [List.map_cons] at hnodup
    have hnodup' : (rest.map (fun q => strOfId q.id)).Nodup := hnodup.of_cons
    have hmem : strOfId p.id ∉ rest.map (fun q => strOfId q.id) :=
      (List.nodup_cons.mp hnodup).1
    rw [ih (acc ++ [(strOfId p.id, p)])
        (fun q hq => hne q (by simp [hq]))
        (fun q hq => by
          have h1 : acc.any (fun r => r.1 = strOfId q.id) = false :=
            hany q (by simp [hq])
          have h2 : strOfId p.id ≠ strOfId q.id := by
            intro hcontra
            exact hmem (hcontra ▸ List.mem_map_of_mem (fun r => strOfId r.id) hq)
          simp [List.any_append, h1, h2])
        hnodup']
    simp

/-! ## Claim theorems for the cache store -/

/-- C6: the identity resolver passes the caller-supplied id through as the
id to use on every branch.  With a user record under that key it reports no
legacy id; otherwise, when some user record carries `firebase_uid` equal to
the input, it reports that record key as the legacy id; when neither lookup
succeeds, when either lookup raises, or when the users collection is
unavailable, it returns `(user_id, none)`.  The embedding is a total
function, mirroring that the source never raises (its try/except falls
through to the final return). -/
theorem resolve_user_id_for_query_spec (store : Option UserStore) (user_id : String) :
    (resolve_user_id_for_query store user_id).1 = user_id ∧
    resolve_user_id_for_query none user_id = (user_id, none) ∧
    (∀ s : UserStore, store = some s →
      ((∀ u, s.docGet user_id = .ok (some u) →
          resolve_user_id_for_query store user_id = (user_id, none)) ∧
       (∀ d rest, s.docGet user_id = .ok none →
          s.queryFirebaseUid user_id = .ok (d :: rest) →
          resolve_user_id_for_query store user_id = (user_id, some d.1)) ∧
       (s.docGet user_id = .ok none → s.queryFirebaseUid user_id = .ok [] →
          resolve_user_id_for_query store user_id = (user_id, none)) ∧
       (∀ e, s.docGet user_id = .error e →
          resolve_user_id_for_query store user_id = (user_id, none)) ∧
       (∀ e, s.docGet user_id = .ok none → s.queryFirebaseUid user_id = .error e →
          resolve_user_id_for_query store user_id = (user_id, none)))) := by
  refine ⟨resolve_fst store user_id, rfl, ?_⟩
  rintro s rfl
  refine ⟨?_, ?_, ?_, ?_, ?_⟩
  · intro u h; simp [resolve_user_id_for_query, h]
  · intro d rest h hq; simp [resolve_user_id_for_query, h, hq]
  · intro h hq; simp [resolve_user_id_for_query, h, hq]
  · intro e h; simp [resolve_user_id_for_query, h]
  · intro e h hq; simp [resolve_user_id_for_query, h, hq]

theorem resolve_user_id_for_query_spec_witness :
    resolve_user_id_for_query
        (some { docs := [("old1", { firebase_uid := some "new1" })] }) "new1"
      = ("new1", some "old1") := by
  have h := resolve_user_id_for_query_spec
    (some { docs := [("old1", { firebase_uid := some "new1" })] }) "new1"
  exact (h.2.2 _ rfl).2.1 ("old1", { firebase_uid := some "new1" }) [] rfl rfl

/-- C7: is_cache_fresh returns true exactly when a cache entry exists for
the resolved user, its `cached_at` is a datetime (a naive one being treated
as the same UTC instant as an aware one), and the age is strictly below the
maximum; a missing entry, missing `cached_at`, or non-datetime `cached_at`
gives false.  In particular a cache aged 25 hours fails a 24-hour check and
one aged 1 hour passes it. -/
theorem is_cache_fresh_spec (store : Option UserStore) (c : ProjectsCache)
    (user_id : String) (max_age_hours now : Int) :
    (is_cache_fresh store c user_id max_age_hours now = true ↔
      ∃ e, getDoc c user_id = some e ∧
        ∃ t, (e.cached_at = some (.dtAware t) ∨ e.cached_at = some (.dtNaive t)) ∧
          now - t < max_age_hours * 3600) ∧
    (∀ e, getDoc c user_id = some e → e.cached_at = some (.dtAware (now - 25 * 3600)) →
        is_cache_fresh store c user_id 24 now = false) ∧
    (∀ e, getDoc c user_id = some e → e.cached_at = some (.dtAware (now - 3600)) →
        is_cache_fresh store c user_id 24 now = true) := by
  refine ⟨?_, ?_, ?_⟩
  · unfold is_cache_fresh
    rw [resolve_fst]
    cases hd : getDoc c user_id with
    | none => simp
    | some e =>
      cases hc : e.cached_at with
      | none => simp [hc]
      | some v => cases v <;> simp [hc]
  · intro e hd hc
    unfold is_cache_fresh
    rw [resolve_fst, hd]
    simp only [hc, decide_eq_false_iff_not, not_lt]
    omega
  · intro e hd hc
    unfold is_cache_fresh
    rw [resolve_fst, hd]
    simp only [hc, decide_eq_true_eq]
    omega

theorem is_cache_fresh_spec_witness :
    is_cache_fresh none [("u", { user_id := "u", cached_at := some (.dtAware (100000 - 25 * 3600)) })]
        "u" 24 100000 = false ∧
    is_cache_fresh none [("u", { user_id := "u", cached_at := some (.dtAware (100000 - 3600)) })]
        "u" 24 100000 = true := by
  constructor
  · exact (is_cache_fresh_spec none
      [("u", { user_id := "u", cached_at := some (.dtAware (100000 - 25 * 3600)) })]
      "u" 24 100000).2.1
      { user_id := "u", cached_at := some (.dtAware (100000 - 25 * 3600)) } rfl rfl
  · exact (is_cache_fresh_spec none
      [("u", { user_id := "u", cached_at := some (.dtAware (100000 - 3600)) })]
      "u" 24 100000).2.2
      { user_id := "u", cached_at := some (.dtAware (100000 - 3600)) } rfl rfl

/-- C9: refresh_project_cache never uses its `total_count` argument: two
calls differing only in that argument produce identical results, and the
parent metadata it writes stores `total_count = len(projects)`. -/
theorem refresh_project_cache_ignores_total_count_arg (store : Option UserStore)
    (c : ProjectsCache) (user_id : String) (projects : List Project)
    (now t1 t2 : Int) :
    refresh_project_cache store c user_id projects t1 now
      = refresh_project_cache store c user_id projects t2 now ∧
    (getDoc (refresh_project_cache store c user_id projects t1 now).2 user_id).map
        CacheEntry.total_count = some ((projects.length : Int)) := by
  constructor
  · rfl
  · unfold refresh_project_cache
    rw [resolve_fst, getDoc_setDoc]
    rfl

/-- C10: in refresh_project_cache, a project whose `id` field is absent or
None is not skipped: Python str() turns it into the non-empty string "None",
so the project is written under the literal child document key "None"; the
skip branch executes exactly when the id converts to the empty string. -/
theorem refresh_project_cache_none_id (store : Option UserStore) (c : ProjectsCache)
    (user_id : String) (p : Project) (tc now : Int) :
    strOfId none = "None" ∧
    (getDoc (refresh_project_cache store c user_id [p] tc now).2 user_id).map
        CacheEntry.projects
      = some (if strOfId p.id = "" then [] else [(strOfId p.id, p)]) := by
  constructor
  · rfl
  · unfold refresh_project_cache
    rw [resolve_fst, getDoc_setDoc]
    by_cases h : strOfId p.id = ""
    · simp [h, writeProjects]
    · simp [h, writeProjects, childSet]

/-- C1 (amended): for projects with pairwise-distinct ids each of which
converts to a non-empty string, replaceAll followed by getProjects returns
exactly the given projects (order-independent, no survivor from a previous
generation) and a live total_count equal to their number. -/
theorem replaceAll_getProjects_roundtrip (store : Option UserStore) (c : ProjectsCache)
    (user_id : String) (projects : List Project) (tc now : Int)
    (hnodup : (projects.map (fun p => strOfId p.id)).Nodup)
    (hne : ∀ p ∈ projects, strOfId p.id ≠ "") :
    (refresh_project_cache store c user_id projects tc now).1 = true ∧
    ∃ r, get_cached_projects store
        (refresh_project_cache store c user_id projects tc now).2 user_id = some r ∧
      r.projects.Perm projects ∧
      r.total_count = ((projects.length : Int)) ∧
      r.cached_at = some (.dtAware now) := by
  have hw : writeProjects projects = projects.map (fun p => (strOfId p.id, p)) := by
    have := foldl_childSet_append projects [] hne (fun q hq => rfl) hnodup
    simpa [writeProjects] using this
  refine ⟨rfl, { projects := projects, cached_at := some (.dtAware now),
                 total_count := ((projects.length : Int)) }, ?_,
          List.Perm.refl projects, rfl, rfl⟩
  unfold get_cached_projects refresh_project_cache
  rw [getDoc_setDoc]
  have hcomp : (Prod.snd ∘ fun p : Project => (strOfId p.id, p)) = fun p => p := rfl
  simp [hw, List.map_map, hcomp]

theorem replaceAll_getProjects_roundtrip_witness :
    ∃ r, get_cached_projects none
        (refresh_project_cache none [] "u"
          [{ id := some "a" }, { id := some "b" }] 99 5).2 "u" = some r ∧
      r.projects.Perm [{ id := some "a" }, { id := some "b" }] ∧
      r.total_count = (([{ id := some "a" }, { id := some "b" }] : List Project).length : Int) ∧
      r.cached_at = some (.dtAware 5) :=
  (replaceAll_getProjects_roundtrip none [] "u"
    [{ id := some "a" }, { id := some "b" }] 99 5 (by decide) (by decide)).2

/-- C1 counterexample: the single project whose id is the empty string has
trivially pairwise-distinct ids, yet replaceAll skips it (the guard tests
the converted string), so the round trip returns an empty project list and a
total_count of 0 instead of the given one-element list. -/
theorem replaceAll_getProjects_roundtrip_cex :
    (([{ id := some "", payload := 0 }] : List Project).map (fun p => strOfId p.id)).Nodup ∧
    get_cached_projects none
        (refresh_project_cache none [] "u" [{ id := some "", payload := 0 }] 1 0).2 "u"
      = some { projects := [], cached_at := some (.dtAware 0), total_count := 0 } ∧
    ¬ (([] : List Project).Perm [{ id := some "", payload := 0 }]) := by
  refine ⟨by decide, rfl, ?_⟩
  intro h
  simpa using h.length_eq

/-! ## Delete-set bookkeeping (C3) -/

theorem deleteChildren_eq_filter (ids : List String) :
    ∀ l : List (String × Project),
      deleteChildren l ids = l.filter (fun q => decide (q.1 ∉ ids)) := by
  induction ids with
  | nil => intro l; simp [deleteChildren]
  | cons i rest ih =>
    intro l
    show deleteChildren (childDelete l i) rest = _
    rw [ih]
    unfold childDelete
    rw [List.filter_filter]
    apply List.filter_congr
    intro a _
    by_cases h1 : a.1 = i <;> by_cases h2 : a.1 ∈ rest <;> simp [h1, h2]

theorem map_fst_filter_not_mem (ids : List String) (l : List (String × Project)) :
    (l.filter (fun q => decide (q.1 ∉ ids))).map Prod.fst
      = (l.map Prod.fst).filter (fun k => decide (k ∉ ids)) := by
  induction l with
  | nil => rfl
  | cons hd t ih =>
    by_cases h : hd.1 ∈ ids <;> simpa [List.filter_cons, h, decide_not] using ih

/-- Deleting a Nodup set of ids, each present among pairwise-distinct child
keys, removes exactly one child per id. -/
theorem length_filter_not_mem :
    ∀ (l : List (String × Project)) (ids : List String),
      (l.map Prod.fst).Nodup → ids.Nodup → (∀ i ∈ ids, i ∈ l.map Prod.fst) →
      (l.filter (fun q => decide (q.1 ∉ ids))).length + ids.length = l.length := by
  intro l
  induction l with
  | nil =>
    intro ids _ _ hsub
    have hids : ids = [] := by
      cases ids with
      | nil => rfl
      | cons i rest => exact absurd (hsub i (by simp)) (by simp)
    simp [hids]
  | cons hd t ih =>
    intro ids hkeys hids hsub
    rw [List.map_cons, List.nodup_cons] at hkeys
    simp only [List.map_cons] at hsub
    by_cases hmem : hd.1 ∈ ids
    · have hlen1 : 0 < ids.length := List.length_pos.mpr (by rintro rfl; simp at hmem)
      have hcongr : t.filter (fun q => decide (q.1 ∉ ids))
          = t.filter (fun q => decide (q.1 ∉ ids.erase hd.1)) := by
        apply List.filter_congr
        intro a ha
        have hne : a.1 ≠ hd.1 := fun hcontra =>
          hkeys.1 (hcontra ▸ List.mem_map_of_mem Prod.fst ha)
        simp [hids.mem_erase_iff, hne]
      have hstep := ih (ids.erase hd.1) hkeys.2 (hids.erase hd.1)
        (by
          intro i hi
          rcases hids.mem_erase_iff.mp hi with ⟨hne2, hi2⟩
          rcases List.mem_cons.mp (hsub i hi2) with h | h
          · exact absurd h hne2
          · exact h)
      have herase : (ids.erase hd.1).length = ids.length - 1 :=
        List.length_erase_of_mem hmem
      have hfilterhd : ((hd :: t).filter (fun q => decide (q.1 ∉ ids))).length
          = (t.filter (fun q => decide (q.1 ∉ ids))).length := by
        rw [List.filter_cons]
        simp [hmem]
      rw [hfilterhd, hcongr]
      rw [herase] at hstep
      simp only [List.length_cons]
      omega
    · have hstep := ih ids hkeys.2 hids
        (by
          intro i hi
          rcases List.mem_cons.mp (hsub i hi) with h | h
          · exact absurd (h ▸ hi) hmem
          · exact h)
      have hfilterhd : ((hd :: t).filter (fun q => decide (q.1 ∉ ids))).length
          = (t.filter (fun q => decide (q.1 ∉ ids))).length + 1 := by
        rw [List.filter_cons]
        simp [hmem]
      rw [hfilterhd]
      simp only [List.length_cons]
      omega

/-- mark_projects_hidden_in_cache with the identity resolution evaluated
(the resolver always passes the input id through). -/
theorem mark_eq (store : Option UserStore) (c : ProjectsCache) (uid : String)
    (ids : List String) (now : Int) :
    mark_projects_hidden_in_cache store c uid ids now
      = if ids = [] then (true, c)
        else
          match getDoc c uid with
          | none => (false, c)
          | some e =>
            (true, setDoc c uid
              { e with total_count := max 0 (e.total_count - (ids.length : Int)),
                       last_updated := some (.dtAware now),
                       projects := deleteChildren e.projects ids }) := by
  unfold mark_projects_hidden_in_cache
  rw [resolve_fst]

/-- A sequence of deleteSet calls for the same user, accumulating the
conjunction of the returned booleans. -/
def runDeleteCalls (store : Option UserStore) (uid : String) (now : Int) :
    ProjectsCache → List (List String) → Bool × ProjectsCache
  | c, [] => (true, c)
  | c, ids :: rest =>
    ((mark_projects_hidden_in_cache store c uid ids now).1
        && (runDeleteCalls store uid now
              (mark_projects_hidden_in_cache store c uid ids now).2 rest).1,
     (runDeleteCalls store uid now
        (mark_projects_hidden_in_cache store c uid ids now).2 rest).2)

theorem runDeleteCalls_spec (store : Option UserStore) (uid : String) (now : Int) :
    ∀ (calls : List (List String)) (c : ProjectsCache) (e : CacheEntry),
      getDoc c uid = some e →
      e.total_count = ((e.projects.length : Int)) →
      (e.projects.map Prod.fst).Nodup →
      (∀ ids ∈ calls, ids.Nodup) →
      (∀ ids ∈ calls, ∀ i ∈ ids, i ∈ e.projects.map Prod.fst) →
      calls.Pairwise (fun a b => ∀ x ∈ a, x ∉ b) →
      (runDeleteCalls store uid now c calls).1 = true ∧
      ∃ e2, getDoc (runDeleteCalls store uid now c calls).2 uid = some e2 ∧
        e2.total_count = ((e2.projects.length : Int)) ∧
        (e2.projects.map Prod.fst).Nodup ∧
        e2.projects.length + (calls.map List.length).sum = e.projects.length := by
  intro calls
  induction calls with
  | nil =>
    intro c e hget hstored hkeys _ _ _
    exact ⟨rfl, e, hget, hstored, hkeys, by simp⟩
  | cons ids rest ih =>
    intro c e hget hstored hkeys hnodup hsub hdisj
    by_cases hempty : ids = []
    · subst hempty
      have hmark : mark_projects_hidden_in_cache store c uid [] now = (true, c) := by
        rw [mark_eq]; simp
      have hrec := ih c e hget hstored hkeys
        (fun l hl => hnodup l (by simp [hl]))
        (fun l hl => hsub l (by simp [hl]))
        (List.Pairwise.of_cons hdisj)
      rcases hrec with ⟨hb, e2, hg2, hs2, hk2, hl2⟩
      simp only [runDeleteCalls, hmark]
      exact ⟨by simpa using hb, e2, hg2, hs2, hk2, by simpa using hl2⟩
    · have hidsnodup : ids.Nodup := hnodup ids (by simp)
      have hidssub : ∀ i ∈ ids, i ∈ e.projects.map Prod.fst := hsub ids (by simp)
      have hlenids : (e.projects.filter (fun q => decide (q.1 ∉ ids))).length + ids.length
          = e.projects.length := length_filter_not_mem e.projects ids hkeys hidsnodup hidssub
      have hmark : mark_projects_hidden_in_cache store c uid ids now
          = (true, setDoc c uid
              { e with total_count := max 0 (e.total_count - (ids.length : Int)),
                       last_updated := some (.dtAware now),
                       projects := deleteChildren e.projects ids }) := by
        rw [mark_eq, if_neg hempty, hget]
      set e1 : CacheEntry :=
        { e with total_count := max 0 (e.total_count - (ids.length : Int)),
                 last_updated := some (.dtAware now),
                 projects := deleteChildren e.projects ids } with he1
      have hget1 : getDoc (setDoc c uid e1) uid = some e1 := getDoc_setDoc c uid e1
      have hproj1 : e1.projects = e.projects.filter (fun q => decide (q.1 ∉ ids)) := by
        rw [he1]
        exact deleteChildren_eq_filter ids e.projects
      have hlen1 : e1.projects.length + ids.length = e.projects.length := by
        rw [hproj1]; exact hlenids
      have hstored1 : e1.total_count = ((e1.projects.length : Int)) := by
        rw [he1]
        show max 0 (e.total_count - ((ids.length : Int))) = _
        rw [hstored]
        have h1 : (0 : Int) ≤ (e.projects.length : Int) - (ids.length : Int) := by
          have := hlenids
          omega
        rw [max_eq_right h1]
        have h2 : (deleteChildren e.projects ids).length
            = (e.projects.filter (fun q => decide (q.1 ∉ ids))).length := by
          rw [deleteChildren_eq_filter ids e.projects]
        show ((e.projects.length : Int)) - ((ids.length : Int))
            = (((deleteChildren e.projects ids).length : Int))
        rw [h2]
        omega
      have hkeys1 : (e1.projects.map Prod.fst).Nodup := by
        rw [hproj1, map_fst_filter_not_mem]
        exact hkeys.filter _
      have hrec := ih (setDoc c uid e1) e1 hget1 hstored1 hkeys1
        (fun l hl => hnodup l (by simp [hl]))
        (by
          intro l hl i hi
          have hin : i ∈ e.projects.map Prod.fst := hsub l (by simp [hl]) i hi
          have hnotids : i ∉ ids := by
            intro hcontra
            exact (List.rel_of_pairwise_cons hdisj hl) i hcontra hi
          rw [hproj1, map_fst_filter_not_mem]
          exact List.mem_filter.mpr ⟨hin, by simpa using hnotids⟩)
        (List.Pairwise.of_cons hdisj)
      rcases hrec with ⟨hb, e2, hg2, hs2, hk2, hl2⟩
      simp only [runDeleteCalls, hmark]
      refine ⟨by simpa using hb, e2, by simpa using hg2, hs2, hk2, ?_⟩
      simp only [List.map_cons, List.sum_cons]
      omega

/-- C3: starting from a cache entry whose stored total_count equals its
child count N and whose child keys are pairwise distinct (the state left by
a successful replaceAll of N distinct projects), any sequence of deleteSet
calls removing disjoint duplicate-free id-sets of currently-cached projects,
summing to k, succeeds and leaves the stored total_count field equal to
N - k and the child collection at N - k documents; a subsequent stats() call
reports existence and an exact live recount also equal to N - k; and a
further deleteSet of arbitrary (possibly missing) ids still returns true,
the delete being idempotent. -/
theorem deleteSet_count_tracking (store : Option UserStore) (c : ProjectsCache)
    (uid : String) (now : Int) (e : CacheEntry) (calls : List (List String))
    (hget : getDoc c uid = some e)
    (hstored : e.total_count = ((e.projects.length : Int)))
    (hkeys : (e.projects.map Prod.fst).Nodup)
    (hnodup : ∀ ids ∈ calls, ids.Nodup)
    (hsub : ∀ ids ∈ calls, ∀ i ∈ ids, i ∈ e.projects.map Prod.fst)
    (hdisj : calls.Pairwise (fun a b => ∀ x ∈ a, x ∉ b)) :
    (runDeleteCalls store uid now c calls).1 = true ∧
    (∃ e2, getDoc (runDeleteCalls store uid now c calls).2 uid = some e2 ∧
      e2.total_count
        = ((e.projects.length : Int)) - (((calls.map List.length).sum : Int)) ∧
      e2.projects.length + (calls.map List.length).sum = e.projects.length) ∧
    (get_cache_stats store (runDeleteCalls store uid now c calls).2 uid).exists_ = true ∧
    (get_cache_stats store (runDeleteCalls store uid now c calls).2 uid).total_count
      = ((e.projects.length : Int)) - (((calls.map List.length).sum : Int)) ∧
    ∀ ids : List String,
      (mark_projects_hidden_in_cache store
          (runDeleteCalls store uid now c calls).2 uid ids now).1 = true := by
  obtain ⟨hb, e2, hg2, hs2, hk2, hl2⟩ :=
    runDeleteCalls_spec store uid now calls c e hget hstored hkeys hnodup hsub hdisj
  have htc : e2.total_count
      = ((e.projects.length : Int)) - (((calls.map List.length).sum : Int)) := by
    rw [hs2]; omega
  have hstats : get_cache_stats store (runDeleteCalls store uid now c calls).2 uid
      = { exists_ := true, cached_at := e2.cached_at, last_updated := e2.last_updated,
          total_count := ((e2.projects.length : Int)) } := by
    unfold get_cache_stats
    rw [resolve_fst, hg2]
  refine ⟨hb, ⟨e2, hg2, htc, hl2⟩, ?_, ?_, ?_⟩
  · rw [hstats]
  · rw [hstats]
    show ((e2.projects.length : Int)) = _
    omega
  · intro ids
    by_cases hids : ids = []
    · subst hids
      rw [mark_eq]
      simp
    · rw [mark_eq, if_neg hids, hg2]

theorem deleteSet_count_tracking_witness :
    (runDeleteCalls none "u" 7
        [("u", { total_count := 3,
                 projects := [("a", {}), ("b", {}), ("c", {})] })]
        [["a"], ["b"]]).1 = true ∧
    (∃ e2, getDoc (runDeleteCalls none "u" 7
        [("u", { total_count := 3,
                 projects := [("a", {}), ("b", {}), ("c", {})] })]
        [["a"], ["b"]]).2 "u" = some e2 ∧
      e2.total_count
        = ((([("a", ({} : Project)), ("b", {}), ("c", {})].length : Nat) : Int))
            - ((((([["a"], ["b"]] : List (List String)).map List.length).sum : Nat) : Int)) ∧
      e2.projects.length + (([["a"], ["b"]] : List (List String)).map List.length).sum
        = [("a", ({} : Project)), ("b", {}), ("c", {})].length) ∧
    (get_cache_stats none (runDeleteCalls none "u" 7
        [("u", { total_count := 3,
                 projects := [("a", {}), ("b", {}), ("c", {})] })]
        [["a"], ["b"]]).2 "u").exists_ = true ∧
    (get_cache_stats none (runDeleteCalls none "u" 7
        [("u", { total_count := 3,
                 projects := [("a", {}), ("b", {}), ("c", {})] })]
        [["a"], ["b"]]).2 "u").total_count
      = ((([("a", ({} : Project)), ("b", {}), ("c", {})].length : Nat) : Int))
          - ((((([["a"], ["b"]] : List (List String)).map List.length).sum : Nat) : Int)) ∧
    ∀ ids : List String,
      (mark_projects_hidden_in_cache none
          (runDeleteCalls none "u" 7
            [("u", { total_count := 3,
                     projects := [("a", {}), ("b", {}), ("c", {})] })]
            [["a"], ["b"]]).2 "u" ids 7).1 = true :=
  deleteSet_count_tracking none
    [("u", { total_count := 3, projects := [("a", {}), ("b", {}), ("c", {})] })]
    "u" 7
    { total_count := 3, projects := [("a", {}), ("b", {}), ("c", {})] }
    [["a"], ["b"]]
    rfl (by decide) (by decide) (by decide) (by decide) (by decide)

/-! ## Hidden-project ledger (hidden_projects_tracker.py) -/

/-- A document of the hidden_projects_log collection. -/
structure HRec where
  user_id : String
  project_id : String
  hidden_at : Int
  hidden_method : String
  updated_at : Int
  created_at : Option Int := none
  feedback_text : Option String := none
  category_name : Option String := none
deriving Repr, DecidableEq

/-- State touched by the tracker: the hidden_projects_log collection (docs
keyed by a numeric id drawn from nextId) and the users collection (used both
for identity resolution and for the denormalized
projects_processed_count). -/
structure TrackerState where
  ledger : List (Nat × HRec) := []
  nextId : Nat := 0
  users : Option UserStore := none
deriving Repr, DecidableEq

/-- Python truthiness of an optional string argument: None and the empty
string are falsy, so the optional field is included only when the string is
non-empty. -/
def pyStrOpt (v : Option String) : Option String :=
  match v with
  | none => none
  | some s => if s = "" then none else some s

/-- Firestore update merge for an optional field: an included field
overwrites, an omitted one keeps the stored value. -/
def overrideField (new old : Option String) : Option String :=
  match new with
  | some s => some s
  | none => old

def matchesPair (uid pid : String) (r : HRec) : Bool :=
  decide (r.user_id = uid) && decide (r.project_id = pid)

/-- The effect of `docs[0].reference.update(update_doc)` in
log_hidden_project on the stored record. -/
def applyUpdateDoc (uid pid m : String) (now : Int) (fb cat : Option String)
    (r : HRec) : HRec :=
  { r with user_id := uid, project_id := pid, hidden_at := now,
           hidden_method := m, updated_at := now,
           feedback_text := overrideField (pyStrOpt fb) r.feedback_text,
           category_name := overrideField (pyStrOpt cat) r.category_name }

/-- Update the first document matching the (user_id, project_id) filter,
mirroring the limit-1 query followed by an update. -/
def updateFirstMatch (uid pid : String) (f : HRec → HRec) :
    List (Nat × HRec) → List (Nat × HRec)
  | [] => []
  | (d, r) :: rest =>
    if matchesPair uid pid r then (d, f r) :: rest
    else (d, r) :: updateFirstMatch uid pid f rest

/-- The best-effort increment of projects_processed_count on the user
document, performed only for a newly inserted ledger record; a missing users
collection, a lookup error or a missing user document leaves state
unchanged (the source catches and logs). -/
def bumpUserCount (st : TrackerState) (uid : String) (now : Int) : TrackerState :=
  match st.users with
  | none => st
  | some s =>
    if s.docGetErr then st
    else
      match s.docs.find? (fun p => p.1 = uid) with
      | none => st
      | some _ =>
        { st with users := some { s with docs := s.docs.map (fun p =>
            if p.1 = uid then
              (p.1, { p.2 with
                        projects_processed_count := p.2.projects_processed_count + 1,
                        last_processed_at := some now })
            else p) } }

/-- hidden_projects_tracker.log_hidden_project: resolves identity, looks up
the first record for the (canonical id, project id) pair; updates it in
place when found, otherwise inserts a fresh record (with created_at) and
increments the denormalized user counter.  Returns true in both cases. -/
def log_hidden_project (st : TrackerState) (user_id project_id hidden_method : String)
    (feedback_text category_name : Option String) (now : Int) : Bool × TrackerState :=
  if (st.ledger.find? (fun q =>
      matchesPair (resolve_user_id_for_query st.users user_id).1 project_id q.2)).isSome then
    (true, { st with ledger :=
        (updateFirstMatch (resolve_user_id_for_query st.users user_id).1 project_id
          (applyUpdateDoc (resolve_user_id_for_query st.users user_id).1 project_id
            hidden_method now feedback_text category_name) st.ledger) })
  else
    (true, bumpUserCount
      { st with
          ledger := st.ledger ++ [(st.nextId,
            { user_id := (resolve_user_id_for_query st.users user_id).1,
              project_id := project_id, hidden_at := now, hidden_method := hidden_method,
              updated_at := now, created_at := some now,
              feedback_text := pyStrOpt feedback_text,
              category_name := pyStrOpt category_name })],
          nextId := st.nextId + 1 }
      (resolve_user_id_for_query st.users user_id).1 now)

/-- Number of ledger records carrying a given (user_id, project_id) pair. -/
def pairCount (l : List (Nat × HRec)) (uid pid : String) : Nat :=
  (l.filter (fun q => matchesPair uid pid q.2)).length

/-- Argument tuple for one log_hidden_project call. -/
structure LogArgs where
  user_id : String
  project_id : String
  hidden_method : String
  feedback_text : Option String := none
  category_name : Option String := none
  now : Int := 0
deriving Repr, DecidableEq

/-- A sequence of log_hidden_project calls. -/
def runLogs : TrackerState → List LogArgs → TrackerState
  | st, [] => st
  | st, a :: rest =>
    runLogs (log_hidden_project st a.user_id a.project_id a.hidden_method
      a.feedback_text a.category_name a.now).2 rest

theorem ledger_bumpUserCount (st : TrackerState) (uid : String) (now : Int) :
    (bumpUserCount st uid now).ledger = st.ledger := by
  unfold bumpUserCount
  cases st.users with
  | none => rfl
  | some s =>
    by_cases h : s.docGetErr
    · simp [h]
    · simp only [if_neg h]
      cases s.docs.find? (fun p => p.1 = uid) <;> rfl

theorem matchesPair_applyUpdateDoc (u p m : String) (now : Int) (fb cat : Option String)
    (r : HRec) (hm : matchesPair u p r = true) (u2 p2 : String) :
    matchesPair u2 p2 (applyUpdateDoc u p m now fb cat r) = matchesPair u2 p2 r := by
  have hm2 : r.user_id = u ∧ r.project_id = p := by
    simpa [matchesPair] using hm
  unfold matchesPair applyUpdateDoc
  simp [hm2.1, hm2.2]

theorem pairCount_updateFirstMatch (u p m : String) (now : Int) (fb cat : Option String)
    (u2 p2 : String) :
    ∀ l : List (Nat × HRec),
      pairCount (updateFirstMatch u p (applyUpdateDoc u p m now fb cat) l) u2 p2
        = pairCount l u2 p2 := by
  intro l
  induction l with
  | nil => rfl
  | cons hd rest ih =>
    obtain ⟨d, r⟩ := hd
    by_cases hm : matchesPair u p r = true
    · show pairCount (if matchesPair u p r then _ else _) u2 p2 = _
      rw [if_pos hm]
      unfold pairCount
      rw [List.filter_cons, List.filter_cons]
      rw [matchesPair_applyUpdateDoc u p m now fb cat r hm u2 p2]
      cases matchesPair u2 p2 r <;> simp
    · show pairCount (if matchesPair u p r then _ else _) u2 p2 = _
      rw [if_neg hm]
      unfold pairCount
      rw [List.filter_cons, List.filter_cons]
      cases matchesPair u2 p2 r <;> simpa using ih

theorem map_fst_updateFirstMatch (u p : String) (f : HRec → HRec) :
    ∀ l : List (Nat × HRec),
      (updateFirstMatch u p f l).map Prod.fst = l.map Prod.fst := by
  intro l
  induction l with
  | nil => rfl
  | cons hd rest ih =>
    obtain ⟨d, r⟩ := hd
    by_cases hm : matchesPair u p r = true
    · show ((if matchesPair u p r then _ else _ : List (Nat × HRec)).map Prod.fst) = _
      rw [if_pos hm]
      rfl
    · show ((if matchesPair u p r then _ else _ : List (Nat × HRec)).map Prod.fst) = _
      rw [if_neg hm]
      simpa using ih

theorem mem_updateFirstMatch (u p : String) (f : HRec → HRec) :
    ∀ (l : List (Nat × HRec)) (d : Nat) (r : HRec),
      l.find? (fun q => matchesPair u p q.2) = some (d, r) →
      (d, f r) ∈ updateFirstMatch u p f l := by
  intro l
  induction l with
  | nil => intro d r h; simp at h
  | cons hd rest ih =>
    intro d r h
    obtain ⟨d0, r0⟩ := hd
    by_cases hm : matchesPair u p r0 = true
    · rw [List.find?_cons_of_pos _ (by simpa using hm)] at h
      cases h
      show (d, f r) ∈ (if matchesPair u p r then _ else _ : List (Nat × HRec))
      rw [if_pos hm]
      exact List.mem_cons_self _ _
    · rw [List.find?_cons_of_neg _ (by simpa using hm)] at h
      show (d, f r) ∈ (if matchesPair u p r0 then _ else _ : List (Nat × HRec))
      rw [if_neg hm]
      exact List.mem_cons_of_mem _ (ih d r h)

theorem pairCount_pos_iff_find (u p : String) (l : List (Nat × HRec)) :
    (l.find? (fun q => matchesPair u p q.2)).isSome = true ↔ 0 < pairCount l u p := by
  rw [List.find?_isSome]
  unfold pairCount
  rw [List.length_pos]
  constructor
  · rintro ⟨x, hx, hpx⟩
    intro hnil
    have hmem : x ∈ l.filter (fun q => matchesPair u p q.2) :=
      List.mem_filter.mpr ⟨hx, hpx⟩
    rw [hnil] at hmem
    simp at hmem
  · intro hne
    rcases List.exists_mem_of_ne_nil _ hne with ⟨x, hx⟩
    have hx2 := List.mem_filter.mp hx
    exact ⟨x, hx2.1, hx2.2⟩

theorem pairCount_append_single (l : List (Nat × HRec)) (d : Nat) (r : HRec)
    (u2 p2 : String) :
    pairCount (l ++ [(d, r)]) u2 p2
      = pairCount l u2 p2 + (if matchesPair u2 p2 r then 1 else 0) := by
  unfold pairCount
  rw [List.filter_append, List.length_append]
  cases h : matchesPair u2 p2 r <;> simp [h]

/-- Effect of one log_hidden_project call on the pair counts: the called
pair goes to 1 when absent and keeps its count otherwise; every other pair
is untouched. -/
theorem pairCount_log (st : TrackerState) (au ap m : String) (fb cat : Option String)
    (now : Int) (u2 p2 : String) :
    pairCount (log_hidden_project st au ap m fb cat now).2.ledger u2 p2
      = if au = u2 ∧ ap = p2 then
          (if pairCount st.ledger au ap = 0 then 1 else pairCount st.ledger u2 p2)
        else pairCount st.ledger u2 p2 := by
  unfold log_hidden_project
  rw [resolve_fst]
  by_cases hfound : (st.ledger.find? (fun q => matchesPair au ap q.2)).isSome = true
  · rw [if_pos hfound]
    have hpos : 0 < pairCount st.ledger au ap :=
      (pairCount_pos_iff_find au ap st.ledger).mp hfound
    show pairCount (updateFirstMatch au ap (applyUpdateDoc au ap m now fb cat) st.ledger)
        u2 p2 = _
    rw [pairCount_updateFirstMatch]
    by_cases hpair : au = u2 ∧ ap = p2
    · rw [if_pos hpair, if_neg (by omega)]
    · rw [if_neg hpair]
  · rw [if_neg hfound]
    have hzero : pairCount st.ledger au ap = 0 := by
      by_contra hne
      exact hfound ((pairCount_pos_iff_find au ap st.ledger).mpr (Nat.pos_of_ne_zero hne))
    show pairCount (bumpUserCount
        { st with
            ledger := st.ledger ++ [(st.nextId,
              { user_id := au, project_id := ap, hidden_at := now, hidden_method := m,
                updated_at := now, created_at := some now,
                feedback_text := pyStrOpt fb, category_name := pyStrOpt cat })],
            nextId := st.nextId + 1 } au now).ledger u2 p2 = _
    rw [ledger_bumpUserCount]
    show pairCount (st.ledger ++ [(st.nextId,
        { user_id := au, project_id := ap, hidden_at := now, hidden_method := m,
          updated_at := now, created_at := some now,
          feedback_text := pyStrOpt fb, category_name := pyStrOpt cat })]) u2 p2 = _
    rw [pairCount_append_single]
    by_cases hpair : au = u2 ∧ ap = p2
    · obtain ⟨hu, hp⟩ := hpair
      subst hu; subst hp
      rw [if_pos (And.intro rfl rfl), if_pos hzero, hzero]
      simp [matchesPair]
    · have hm : matchesPair u2 p2
          ({ user_id := au, project_id := ap, hidden_at := now, hidden_method := m,
             updated_at := now, created_at := some now,
             feedback_text := pyStrOpt fb, category_name := pyStrOpt cat } : HRec) = false := by
        unfold matchesPair
        by_cases hu2 : au = u2
        · have hp2 : ¬ ap = p2 := fun hp2 => hpair ⟨hu2, hp2⟩
          simp [hu2, hp2]
        · simp [hu2]
      rw [hm, if_neg hpair]
      simp

theorem pairCount_runLogs_le_one (u p : String) :
    ∀ (calls : List LogArgs) (st : TrackerState),
      pairCount st.ledger u p ≤ 1 →
      pairCount (runLogs st calls).ledger u p ≤ 1 := by
  intro calls
  induction calls with
  | nil => exact fun st h => h
  | cons a rest ih =>
    intro st h
    show pairCount (runLogs (log_hidden_project st a.user_id a.project_id a.hidden_method
        a.feedback_text a.category_name a.now).2 rest).ledger u p ≤ 1
    apply ih
    rw [pairCount_log]
    by_cases hpair : a.user_id = u ∧ a.project_id = p
    · rw [if_pos hpair]
      by_cases h0 : pairCount st.ledger a.user_id a.project_id = 0
      · rw [if_pos h0]
      · rw [if_neg h0]; exact h
    · rw [if_neg hpair]; exact h

/-- C4: upsert uniqueness of the hidden-project ledger.  From a state
holding at most one record for a pair, any number of record calls (for any
pairs) leaves at most one record for it; a call finding no record appends
exactly one fresh record carrying created_at; a call finding a record
returns true and rewrites the first matching document in place — document
ids unchanged, same pair count, the stored record now carrying the new
hidden_at, hidden_method and updated_at (applyUpdateDoc) — instead of
creating a duplicate. -/
theorem log_hidden_project_upsert_unique (st : TrackerState) (uid pid : String)
    (hle : pairCount st.ledger uid pid ≤ 1) :
    (∀ calls : List LogArgs, pairCount (runLogs st calls).ledger uid pid ≤ 1) ∧
    (∀ (m : String) (fb cat : Option String) (now : Int),
      pairCount st.ledger uid pid = 0 →
      (log_hidden_project st uid pid m fb cat now).2.ledger
        = st.ledger ++ [(st.nextId,
            { user_id := uid, project_id := pid, hidden_at := now, hidden_method := m,
              updated_at := now, created_at := some now,
              feedback_text := pyStrOpt fb, category_name := pyStrOpt cat })]) ∧
    (∀ (m : String) (fb cat : Option String) (now : Int),
      0 < pairCount st.ledger uid pid →
      (log_hidden_project st uid pid m fb cat now).1 = true ∧
      (log_hidden_project st uid pid m fb cat now).2.ledger.map Prod.fst
        = st.ledger.map Prod.fst ∧
      pairCount (log_hidden_project st uid pid m fb cat now).2.ledger uid pid
        = pairCount st.ledger uid pid ∧
      ∃ d r, st.ledger.find? (fun q => matchesPair uid pid q.2) = some (d, r) ∧
        (d, applyUpdateDoc uid pid m now fb cat r)
          ∈ (log_hidden_project st uid pid m fb cat now).2.ledger) := by
  refine ⟨fun calls => pairCount_runLogs_le_one uid pid calls st hle, ?_, ?_⟩
  · intro m fb cat now h0
    have hfound : ¬ (st.ledger.find? (fun q => matchesPair uid pid q.2)).isSome = true := by
      rw [pairCount_pos_iff_find]
      omega
    unfold log_hidden_project
    rw [resolve_fst, if_neg hfound]
    show (bumpUserCount
        { st with
            ledger := st.ledger ++ [(st.nextId,
              { user_id := uid, project_id := pid, hidden_at := now, hidden_method := m,
                updated_at := now, created_at := some now,
                feedback_text := pyStrOpt fb, category_name := pyStrOpt cat })],
            nextId := st.nextId + 1 } uid now).ledger = _
    rw [ledger_bumpUserCount]
  · intro m fb cat now hpos
    have hfound : (st.ledger.find? (fun q => matchesPair uid pid q.2)).isSome = true :=
      (pairCount_pos_iff_find uid pid st.ledger).mpr hpos
    unfold log_hidden_project
    rw [resolve_fst, if_pos hfound]
    refine ⟨rfl, ?_, ?_, ?_⟩
    · exact map_fst_updateFirstMatch uid pid _ st.ledger
    · exact pairCount_updateFirstMatch uid pid m now fb cat uid pid st.ledger
    · rcases Option.isSome_iff_exists.mp hfound with ⟨⟨d, r⟩, hdr⟩
      exact ⟨d, r, hdr, mem_updateFirstMatch uid pid _ st.ledger d r hdr⟩

theorem log_hidden_project_upsert_unique_witness :
    pairCount (runLogs ({} : TrackerState)
        [{ user_id := "u", project_id := "p", hidden_method := "manual" },
         { user_id := "u", project_id := "p", hidden_method := "manual", now := 5 }]).ledger
      "u" "p" ≤ 1 ∧
    (log_hidden_project ({} : TrackerState) "u" "p" "manual" none none 0).2.ledger
      = [(0, { user_id := "u", project_id := "p", hidden_at := 0, hidden_method := "manual",
               updated_at := 0, created_at := some 0, feedback_text := none,
               category_name := none })] := by
  constructor
  · exact (log_hidden_project_upsert_unique {} "u" "p" (by decide)).1 _
  · have h := (log_hidden_project_upsert_unique {} "u" "p" (by decide)).2.1
      "manual" none none 0 (by decide)
    simpa [pyStrOpt] using h

/-! ## Migration-on-read for the hidden-project count (C5) -/

/-- hidden_projects_tracker.get_hidden_projects_count: counts records under
the canonical id; when the count is zero and a legacy id was discovered,
reads the legacy records and, if any exist, rewrites their user_id field in
place (batched in the source, with no observable difference here) and
returns the migrated count. -/
def get_hidden_projects_count (st : TrackerState) (user_id : String) :
    Nat × TrackerState :=
  if (st.ledger.filter (fun q =>
        decide (q.2.user_id = (resolve_user_id_for_query st.users user_id).1))).length = 0 then
    match (resolve_user_id_for_query st.users user_id).2 with
    | none => (0, st)
    | some o =>
      if st.ledger.filter (fun q => decide (q.2.user_id = o)) = [] then (0, st)
      else
        ((st.ledger.filter (fun q => decide (q.2.user_id = o))).length,
         { st with ledger := st.ledger.map (fun q =>
             if q.2.user_id = o then
               (q.1, { q.2 with user_id := (resolve_user_id_for_query st.users user_id).1 })
             else q) })
  else
    ((st.ledger.filter (fun q =>
        decide (q.2.user_id = (resolve_user_id_for_query st.users user_id).1))).length, st)

theorem count_after_migrate (uid o : String) :
    ∀ l : List (Nat × HRec), (∀ q ∈ l, q.2.user_id ≠ uid) →
      ((l.map (fun q => if q.2.user_id = o then (q.1, { q.2 with user_id := uid }) else q)).filter
          (fun q => decide (q.2.user_id = uid))).length
        = (l.filter (fun q => decide (q.2.user_id = o))).length := by
  intro l
  induction l with
  | nil => intro _; rfl
  | cons hd t ih =>
    intro hnone
    have hhd : hd.2.user_id ≠ uid := hnone hd (by simp)
    by_cases ho : hd.2.user_id = o
    · simp [List.filter_cons, ho, ih (fun q hq => hnone q (by simp [hq]))]
    · simp [List.filter_cons, ho, hhd, ih (fun q hq => hnone q (by simp [hq]))]

/-- C5: migration idempotence of the hidden-project count.  For a user whose
resolution discovers a legacy id and whose ledger holds no record under the
canonical id, the first count call returns the number of legacy records and
rewrites exactly those records to the canonical id (touching nothing else);
a second call returns the same count and performs no further mutation. -/
theorem count_migration_idempotent (st : TrackerState) (uid o : String)
    (hres : resolve_user_id_for_query st.users uid = (uid, some o))
    (hnone : ∀ q ∈ st.ledger, q.2.user_id ≠ uid) :
    (get_hidden_projects_count st uid).1
      = (st.ledger.filter (fun q => decide (q.2.user_id = o))).length ∧
    (get_hidden_projects_count st uid).2.ledger
      = st.ledger.map (fun q =>
          if q.2.user_id = o then (q.1, { q.2 with user_id := uid }) else q) ∧
    (get_hidden_projects_count st uid).2.users = st.users ∧
    get_hidden_projects_count (get_hidden_projects_count st uid).2 uid
      = ((get_hidden_projects_count st uid).1, (get_hidden_projects_count st uid).2) := by
  have h1 : (resolve_user_id_for_query st.users uid).1 = uid := by rw [hres]
  have h2 : (resolve_user_id_for_query st.users uid).2 = some o := by rw [hres]
  have hcnt0 : st.ledger.filter (fun q => decide (q.2.user_id = uid)) = [] := by
    rw [List.filter_eq_nil]
    intro q hq
    simpa using hnone q hq
  by_cases hold : st.ledger.filter (fun q => decide (q.2.user_id = o)) = []
  · have hno : ∀ q ∈ st.ledger, q.2.user_id ≠ o := by
      intro q hq
      have hq2 := List.filter_eq_nil.mp hold q hq
      simpa using hq2
    have hmapid : st.ledger.map (fun q =>
        if q.2.user_id = o then (q.1, { q.2 with user_id := uid }) else q) = st.ledger := by
      have hcongr : ∀ q ∈ st.ledger,
          (if q.2.user_id = o then (q.1, { q.2 with user_id := uid }) else q) = id q :=
        fun q hq => by rw [if_neg (hno q hq)]; rfl
      rw [List.map_congr_left hcongr, List.map_id]
    have hfirst : get_hidden_projects_count st uid = (0, st) := by
      unfold get_hidden_projects_count
      rw [h1, h2, hcnt0]
      simp [hold]
    rw [hfirst]
    exact ⟨by simp [hold], by simp [hmapid], rfl, by simpa using hfirst⟩
  · have hN : (st.ledger.filter (fun q => decide (q.2.user_id = o))).length ≠ 0 := by
      intro hcontra
      exact hold (List.length_eq_zero.mp hcontra)
    set st1 : TrackerState := { st with ledger := st.ledger.map (fun q =>
        if q.2.user_id = o then (q.1, { q.2 with user_id := uid }) else q) } with hst1
    have hfirst : get_hidden_projects_count st uid
        = ((st.ledger.filter (fun q => decide (q.2.user_id = o))).length, st1) := by
      unfold get_hidden_projects_count
      rw [h1, h2, hcnt0]
      simp [hold, hst1]
    have h1b : (resolve_user_id_for_query st1.users uid).1 = uid := h1
    have hcount1 : (st1.ledger.filter (fun q => decide (q.2.user_id = uid))).length
        = (st.ledger.filter (fun q => decide (q.2.user_id = o))).length :=
      count_after_migrate uid o st.ledger hnone
    have hsecond : get_hidden_projects_count st1 uid
        = ((st.ledger.filter (fun q => decide (q.2.user_id = o))).length, st1) := by
      unfold get_hidden_projects_count
      rw [h1b, hcount1, if_neg hN]
    rw [hfirst]
    exact ⟨rfl, rfl, rfl, by simpa using hsecond⟩

theorem count_migration_idempotent_witness :
    (get_hidden_projects_count
        { ledger := [(0, { user_id := "old1", project_id := "p", hidden_at := 1,
                           hidden_method := "manual", updated_at := 1 })],
          nextId := 1,
          users := some { docs := [("old1", { firebase_uid := some "new1" })] } } "new1").1
      = 1 ∧
    get_hidden_projects_count
        (get_hidden_projects_count
          { ledger := [(0, { user_id := "old1", project_id := "p", hidden_at := 1,
                             hidden_method := "manual", updated_at := 1 })],
            nextId := 1,
            users := some { docs := [("old1", { firebase_uid := some "new1" })] } } "new1").2
        "new1"
      = ((get_hidden_projects_count
          { ledger := [(0, { user_id := "old1", project_id := "p", hidden_at := 1,
                             hidden_method := "manual", updated_at := 1 })],
            nextId := 1,
            users := some { docs := [("old1", { firebase_uid := some "new1" })] } } "new1").1,
         (get_hidden_projects_count
          { ledger := [(0, { user_id := "old1", project_id := "p", hidden_at := 1,
                             hidden_method := "manual", updated_at := 1 })],
            nextId := 1,
            users := some { docs := [("old1", { firebase_uid := some "new1" })] } } "new1").2) := by
  have h := count_migration_idempotent
    { ledger := [(0, { user_id := "old1", project_id := "p", hidden_at := 1,
                       hidden_method := "manual", updated_at := 1 })],
      nextId := 1,
      users := some { docs := [("old1", { firebase_uid := some "new1" })] } }
    "new1" "old1" rfl (by decide)
  exact ⟨h.1, h.2.2.2⟩

/-! ## Paginated listing of hidden projects (C8) -/

/-- Descending hidden_at order used by the order_by queries on ledger
documents. -/
def hiddenDescRel (a b : Nat × HRec) : Prop := b.2.hidden_at ≤ a.2.hidden_at

instance : DecidableRel hiddenDescRel := fun a b => Int.decLe _ _

instance : IsTotal (Nat × HRec) hiddenDescRel :=
  ⟨fun a b => le_total b.2.hidden_at a.2.hidden_at⟩

instance : IsTrans (Nat × HRec) hiddenDescRel :=
  ⟨fun _ _ _ h1 h2 => le_trans h2 h1⟩

/-- The projection of a ledger document returned by get_all_hidden_projects
(the final ISO-string serialization of hidden_at is a representation change
only and is not modelled). -/
structure HiddenProjEntry where
  project_id : String
  hidden_at : Int
  hidden_method : String
  category_name : Option String
  feedback_text : Option String
deriving Repr, DecidableEq

def projOfRec (r : HRec) : HiddenProjEntry :=
  { project_id := r.project_id, hidden_at := r.hidden_at,
    hidden_method := r.hidden_method, category_name := r.category_name,
    feedback_text := r.feedback_text }

/-- Descending hidden_at order on projected rows (the client-side re-sort of
the merged result list). -/
def projDescRel (a b : HiddenProjEntry) : Prop := b.hidden_at ≤ a.hidden_at

instance : DecidableRel projDescRel := fun a b => Int.decLe _ _

instance : IsTotal HiddenProjEntry projDescRel :=
  ⟨fun a b => le_total b.hidden_at a.hidden_at⟩

instance : IsTrans HiddenProjEntry projDescRel :=
  ⟨fun _ _ _ h1 h2 => le_trans h2 h1⟩

/-- The dictionary returned by get_all_hidden_projects. -/
structure PaginateResult where
  projects : List HiddenProjEntry
  total : Nat
  page : Nat
  limit : Nat
  total_pages : Nat
deriving Repr, DecidableEq

/-- The main fetch of get_all_hidden_projects: the rows of the user ordered by
hidden_at descending, truncated at `limit*page + 10` documents (never the
full collection). -/
def mainFetch (st : TrackerState) (user_id : String) (page limit : Nat) :
    List HiddenProjEntry :=
  ((List.insertionSort hiddenDescRel
      (st.ledger.filter (fun q =>
        decide (q.2.user_id = (resolve_user_id_for_query st.users user_id).1)))).take
    (limit * page + 10)).map (fun q => projOfRec q.2)

/-- The legacy fetch: up to `limit` rows under the legacy id, hidden_at
descending. -/
def oldFetch (st : TrackerState) (o : String) (limit : Nat) : List HiddenProjEntry :=
  ((List.insertionSort hiddenDescRel
      (st.ledger.filter (fun q => decide (q.2.user_id = o)))).take limit).map
    (fun q => projOfRec q.2)

/-- The migration batch of get_all_hidden_projects: rewrites the user_id of
the first n documents (collection order) carrying the legacy id. -/
def migrateFirstN : List (Nat × HRec) → String → String → Nat → List (Nat × HRec)
  | [], _, _, _ => []
  | q :: rest, o, uid, n =>
    if q.2.user_id = o then
      if n = 0 then q :: rest
      else (q.1, { q.2 with user_id := uid }) :: migrateFirstN rest o uid (n - 1)
    else q :: migrateFirstN rest o uid n

/-- Slicing the requested page out of the fetched rows; `total` is the
fetched row count in both source branches (lines 553-559 of the tracker:
exact when the fetch was not truncated, otherwise a lower bound). -/
def paginateFrom (all_results : List HiddenProjEntry) (page limit : Nat) :
    PaginateResult :=
  { projects := (all_results.drop ((page - 1) * limit)).take limit
    total := all_results.length
    page := page
    limit := limit
    total_pages :=
      if 0 < all_results.length then (all_results.length + limit - 1) / limit else 0 }

/-- hidden_projects_tracker.get_all_hidden_projects with page and limit as
naturals (the route layer passes positive integers).  The main fetch takes
at most `limit*page + 10` documents ordered by hidden_at descending.  When
it returned fewer than `limit` rows and a legacy id is known, up to `limit`
legacy rows are fetched and, if any exist, up to 500 legacy documents are
migrated in place and the fetched rows are merged and re-sorted.  The
requested page is then sliced out. -/
def get_all_hidden_projects (st : TrackerState) (user_id : String)
    (page limit : Nat) : PaginateResult × TrackerState :=
  match (resolve_user_id_for_query st.users user_id).2 with
  | none => (paginateFrom (mainFetch st user_id page limit) page limit, st)
  | some o =>
    if (mainFetch st user_id page limit).length < limit then
      if oldFetch st o limit = [] then
        (paginateFrom (mainFetch st user_id page limit) page limit, st)
      else
        (paginateFrom
          (List.insertionSort projDescRel
            (mainFetch st user_id page limit ++ oldFetch st o limit)) page limit,
         { st with ledger := (migrateFirstN st.ledger o
             (resolve_user_id_for_query st.users user_id).1 500) })
    else (paginateFrom (mainFetch st user_id page limit) page limit, st)

/-- C8 (amended): for every user for whom identity resolution discovers no
legacy id, and every page ≥ 1 and limit, paginate fetches at most
`limit*page + 10` rows ordered by hidden_at descending (never the full
collection), mutates nothing, returns the requested page slice of the
fetched rows with at most `limit` entries still in descending order, and
reports `total = min (limit*page + 10) M` where M is the number of the
ledger records of the user — the exact count exactly when the fetch was not
truncated, and a lower bound otherwise. -/
theorem paginate_bounded_fetch (st : TrackerState) (uid : String) (page limit : Nat)
    (hres : (resolve_user_id_for_query st.users uid).2 = none)
    (hpage : 1 ≤ page) :
    (get_all_hidden_projects st uid page limit).2 = st ∧
    (get_all_hidden_projects st uid page limit).1.total
      = min (limit * page + 10)
          (st.ledger.filter (fun q =>
            decide (q.2.user_id = (resolve_user_id_for_query st.users uid).1))).length ∧
    (get_all_hidden_projects st uid page limit).1.projects.length ≤ limit ∧
    List.Pairwise (fun a b => b.hidden_at ≤ a.hidden_at)
      (get_all_hidden_projects st uid page limit).1.projects ∧
    (get_all_hidden_projects st uid page limit).1.projects
      = ((mainFetch st uid page limit).drop ((page - 1) * limit)).take limit ∧
    (get_all_hidden_projects st uid page limit).1.page = page ∧
    (get_all_hidden_projects st uid page limit).1.limit = limit := by
  have hmain : get_all_hidden_projects st uid page limit
      = (paginateFrom (mainFetch st uid page limit) page limit, st) := by
    unfold get_all_hidden_projects
    rw [hres]
  have hsorted : List.Pairwise (fun a b => b.hidden_at ≤ a.hidden_at)
      (mainFetch st uid page limit) := by
    unfold mainFetch
    rw [List.pairwise_map]
    have hs : (List.insertionSort hiddenDescRel
        (st.ledger.filter (fun q =>
          decide (q.2.user_id = (resolve_user_id_for_query st.users uid).1)))).Pairwise
        hiddenDescRel :=
      List.sorted_insertionSort hiddenDescRel _
    exact (hs.sublist (List.take_sublist _ _)).imp (fun h => h)
  rw [hmain]
  refine ⟨rfl, ?_, ?_, ?_, rfl, rfl, rfl⟩
  · show (mainFetch st uid page limit).length = _
    unfold mainFetch
    rw [List.length_map, List.length_take, List.length_insertionSort]
  · exact List.length_take_le _ _
  · show List.Pairwise _ (((mainFetch st uid page limit).drop ((page - 1) * limit)).take limit)
    exact (hsorted.sublist (List.drop_sublist _ _)).sublist (List.take_sublist _ _)

theorem paginate_bounded_fetch_witness :
    (get_all_hidden_projects
        { ledger := [(0, { user_id := "u", project_id := "a", hidden_at := 5,
                           hidden_method := "manual", updated_at := 5 }),
                     (1, { user_id := "u", project_id := "b", hidden_at := 9,
                           hidden_method := "manual", updated_at := 9 })],
          nextId := 2, users := none } "u" 1 1).2
      = { ledger := [(0, { user_id := "u", project_id := "a", hidden_at := 5,
                           hidden_method := "manual", updated_at := 5 }),
                     (1, { user_id := "u", project_id := "b", hidden_at := 9,
                           hidden_method := "manual", updated_at := 9 })],
          nextId := 2, users := none } ∧
    (get_all_hidden_projects
        { ledger := [(0, { user_id := "u", project_id := "a", hidden_at := 5,
                           hidden_method := "manual", updated_at := 5 }),
                     (1, { user_id := "u", project_id := "b", hidden_at := 9,
                           hidden_method := "manual", updated_at := 9 })],
          nextId := 2, users := none } "u" 1 1).1.total = 2 ∧
    (get_all_hidden_projects
        { ledger := [(0, { user_id := "u", project_id := "a", hidden_at := 5,
                           hidden_method := "manual", updated_at := 5 }),
                     (1, { user_id := "u", project_id := "b", hidden_at := 9,
                           hidden_method := "manual", updated_at := 9 })],
          nextId := 2, users := none } "u" 1 1).1.projects.length ≤ 1 := by
  have h := paginate_bounded_fetch
    { ledger := [(0, { user_id := "u", project_id := "a", hidden_at := 5,
                       hidden_method := "manual", updated_at := 5 }),
                 (1, { user_id := "u", project_id := "b", hidden_at := 9,
                       hidden_method := "manual", updated_at := 9 })],
      nextId := 2, users := none } "u" 1 1 rfl (by decide)
  exact ⟨h.1, by rw [h.2.1]; decide, h.2.2.1⟩

/-- C8 counterexample: when a legacy id is discovered, the migration branch
runs: with three legacy records and page = limit = 1 the main fetch returns
0 rows (fewer than its fetch limit of 11), yet the reported total is 1 while
the exact count of the records of the user after the call is 3 — the total is not
the exact count even though the fetch was not truncated, refuting the claim
as stated for every user. -/
theorem paginate_bounded_fetch_cex :
    (get_all_hidden_projects
        { ledger := [(0, { user_id := "old1", project_id := "a", hidden_at := 3,
                           hidden_method := "manual", updated_at := 3 }),
                     (1, { user_id := "old1", project_id := "b", hidden_at := 2,
                           hidden_method := "manual", updated_at := 2 }),
                     (2, { user_id := "old1", project_id := "c", hidden_at := 1,
                           hidden_method := "manual", updated_at := 1 })],
          nextId := 3,
          users := some { docs := [("old1", { firebase_uid := some "new1" })] } }
        "new1" 1 1).1.total = 1 ∧
    ((get_all_hidden_projects
        { ledger := [(0, { user_id := "old1", project_id := "a", hidden_at := 3,
                           hidden_method := "manual", updated_at := 3 }),
                     (1, { user_id := "old1", project_id := "b", hidden_at := 2,
                           hidden_method := "manual", updated_at := 2 }),
                     (2, { user_id := "old1", project_id := "c", hidden_at := 1,
                           hidden_method := "manual", updated_at := 1 })],
          nextId := 3,
          users := some { docs := [("old1", { firebase_uid := some "new1" })] } }
        "new1" 1 1).2.ledger.filter (fun q => decide (q.2.user_id = "new1"))).length = 3 ∧
    (1 : Nat) < 1 * 1 + 10 := by
  refine ⟨?_, ?_, by decide⟩
  · rfl
  · rfl

/-! ## Stale-cache refresh sweep (cache_refresh.refresh_stale_caches, C2) -/

/-- A document of the session_keys collection: whether its cookies dict
holds a usable respondent.session.sid value, and the stored is_valid flag
(none when never set). -/
structure SessionDoc where
  user_id : String
  has_sid : Bool := true
  is_valid : Option Bool := none
deriving Repr, DecidableEq

/-- Per-user results of the external collaborators consumed by the sweep,
keyed by user id: get_profile_id_from_user_profiles,
verify_respondent_authentication (its success flag) and
fetch_all_respondent_projects (an Except error models a raised exception,
caught by the per-user try of the sweep and counted as an error). -/
structure RefreshEnv where
  profileId : String → Option String
  verifySuccess : String → Bool
  fetch : String → Except Unit (List Project × Int)

/-- The summary counters logged once per sweep by refresh_stale_caches. -/
structure SweepSummary where
  total_users : Nat := 0
  refreshed : Nat := 0
  errors : Nat := 0
  skipped_fresh : Nat := 0
  skipped_no_user_id : Nat := 0
deriving Repr, DecidableEq

/-- The per-tick outcome of one cached user in refresh_stale_caches. -/
inductive UserOutcome
  | skippedNoUserId
  | skippedFresh
  | skippedNoSessionDoc
  | skippedNoCookie
  | errorNoProfile
  | errorInvalidSession
  | errorFetchRaised
  | errorEmptyFetch
  | refreshed
deriving Repr, DecidableEq

/-- The body of the per-user loop of refresh_stale_caches: the user_id
falsiness check, the freshness check, then (inside the per-user try) the
session-keys lookup — a missing record or missing session cookie skips the
user with a bare continue — the profile lookup, the remote session
verification and the fetch; a non-empty fetch rewrites the cache via
refresh_project_cache.  The stored is_valid flag of the session record is
never read here. -/
def processCachedUser (env : RefreshEnv) (sessions : List SessionDoc)
    (store : Option UserStore) (max_age_hours now : Int)
    (c : ProjectsCache) (entry : CacheEntry) : UserOutcome × ProjectsCache :=
  if entry.user_id = "" then (.skippedNoUserId, c)
  else if is_cache_fresh store c entry.user_id max_age_hours now then (.skippedFresh, c)
  else
    match sessions.find? (fun s => s.user_id = entry.user_id) with
    | none => (.skippedNoSessionDoc, c)
    | some sdoc =>
      if sdoc.has_sid = false then (.skippedNoCookie, c)
      else
        match env.profileId entry.user_id with
        | none => (.errorNoProfile, c)
        | some _ =>
          if env.verifySuccess entry.user_id = false then (.errorInvalidSession, c)
          else
            match env.fetch entry.user_id with
            | .error _ => (.errorFetchRaised, c)
            | .ok (projects, total_count) =>
              if projects = [] then (.errorEmptyFetch, c)
              else (.refreshed,
                (refresh_project_cache store c entry.user_id projects total_count now).2)

/-- Which summary counter (if any) an outcome increments: the
skipped-no-session and skipped-no-cookie outcomes increment none. -/
def bumpSummary (s : SweepSummary) : UserOutcome → SweepSummary
  | .skippedNoUserId => { s with skipped_no_user_id := s.skipped_no_user_id + 1 }
  | .skippedFresh => { s with skipped_fresh := s.skipped_fresh + 1 }
  | .skippedNoSessionDoc => s
  | .skippedNoCookie => s
  | .errorNoProfile => { s with errors := s.errors + 1 }
  | .errorInvalidSession => { s with errors := s.errors + 1 }
  | .errorFetchRaised => { s with errors := s.errors + 1 }
  | .errorEmptyFetch => { s with errors := s.errors + 1 }
  | .refreshed => { s with refreshed := s.refreshed + 1 }

def sweepLoop (env : RefreshEnv) (sessions : List SessionDoc)
    (store : Option UserStore) (max_age_hours now : Int) :
    ProjectsCache → List CacheEntry → SweepSummary → ProjectsCache × SweepSummary
  | c, [], s => (c, s)
  | c, entry :: rest, s =>
    sweepLoop env sessions store max_age_hours now
      (processCachedUser env sessions store max_age_hours now c entry).2 rest
      (bumpSummary s (processCachedUser env sessions store max_age_hours now c entry).1)

/-- cache_refresh.refresh_stale_caches: streams the cached users once up
front, processes each against the evolving cache state, and logs the
summary counters (total users, refreshed, errors, skipped-fresh,
skipped-no-user-id) once per sweep. -/
def refresh_stale_caches (env : RefreshEnv) (sessions : List SessionDoc)
    (store : Option UserStore) (c : ProjectsCache) (max_age_hours now : Int) :
    ProjectsCache × SweepSummary :=
  sweepLoop env sessions store max_age_hours now c (c.map Prod.snd)
    { total_users := c.length }

/-- The five-user scenario of the sweep claim: A has no session record, B
has is_valid = false stored, C has a fresh cache, D and E are stale with
valid sessions.  A, B, D, E carry 25-hour-old caches; C a 1-hour-old one;
the sweep runs at instant 1000000 with a 24-hour maximum age. -/
def scenarioCache : ProjectsCache :=
  [("A", { user_id := "A", total_count := 1,
           cached_at := some (.dtAware (1000000 - 90000)),
           projects := [("p1", { id := some "p1" })] }),
   ("B", { user_id := "B", total_count := 1,
           cached_at := some (.dtAware (1000000 - 90000)),
           projects := [("p1", { id := some "p1" })] }),
   ("C", { user_id := "C", total_count := 1,
           cached_at := some (.dtAware (1000000 - 3600)),
           projects := [("p1", { id := some "p1" })] }),
   ("D", { user_id := "D", total_count := 1,
           cached_at := some (.dtAware (1000000 - 90000)),
           projects := [("p1", { id := some "p1" })] }),
   ("E", { user_id := "E", total_count := 1,
           cached_at := some (.dtAware (1000000 - 90000)),
           projects := [("p1", { id := some "p1" })] })]

def scenarioSessions : List SessionDoc :=
  [{ user_id := "B", has_sid := true, is_valid := some false },
   { user_id := "C", has_sid := true, is_valid := some true },
   { user_id := "D", has_sid := true, is_valid := some true },
   { user_id := "E", has_sid := true, is_valid := some true }]

/-- Collaborators for the scenario: every user has a profile id; remote
verification fails exactly for B (whose session is indeed invalid); fetches
succeed with one project. -/
def scenarioEnv : RefreshEnv :=
  { profileId := fun _ => some "pid"
    verifySuccess := fun u => if u = "B" then false else true
    fetch := fun _ => .ok ([{ id := some "p1" }], 1) }

/-- C2 counterexample: in the five-user scenario the sweep summary reports
1 error and no skip for the no-session and invalid-session users — the user
without a session record is skipped by a bare continue that increments no
counter, and the invalid-session user is counted as an error after failing
remote verification — refuting the claimed 2 skipped / 0 errors summary. -/
theorem sweep_summary_cex :
    (refresh_stale_caches scenarioEnv scenarioSessions none scenarioCache 24 1000000).2.errors
      = 1 ∧
    ¬ ((refresh_stale_caches scenarioEnv scenarioSessions none scenarioCache
        24 1000000).2.errors = 0) ∧
    (refresh_stale_caches scenarioEnv scenarioSessions none scenarioCache
        24 1000000).2.refreshed
      + (refresh_stale_caches scenarioEnv scenarioSessions none scenarioCache
          24 1000000).2.errors
      + (refresh_stale_caches scenarioEnv scenarioSessions none scenarioCache
          24 1000000).2.skipped_fresh
      + (refresh_stale_caches scenarioEnv scenarioSessions none scenarioCache
          24 1000000).2.skipped_no_user_id = 4 ∧
    (refresh_stale_caches scenarioEnv scenarioSessions none scenarioCache
        24 1000000).2.total_users = 5 := by
  refine ⟨rfl, by decide, rfl, rfl⟩

/-- C2 (amended): in the five-user scenario the logged summary is 5 total
users, 2 refreshed, 1 error, 1 skipped (fresh cache) and 0 skipped (no
user_id): the no-session user follows the uncounted-skip branch, and the
invalid-session user follows candidate → refreshing → error because the
sweep never reads the stored is_valid flag and counts the failed remote
verification as an error; only fresh-cache and missing-user-id skips are
counted. -/
theorem sweep_summary_amended :
    (refresh_stale_caches scenarioEnv scenarioSessions none scenarioCache 24 1000000).2
      = { total_users := 5, refreshed := 2, errors := 1, skipped_fresh := 1,
          skipped_no_user_id := 0 } ∧
    (processCachedUser scenarioEnv scenarioSessions none 24 1000000 scenarioCache
        { user_id := "A", total_count := 1,
          cached_at := some (.dtAware (1000000 - 90000)),
          projects := [("p1", { id := some "p1" })] }).1 = .skippedNoSessionDoc ∧
    (processCachedUser scenarioEnv scenarioSessions none 24 1000000 scenarioCache
        { user_id := "B", total_count := 1,
          cached_at := some (.dtAware (1000000 - 90000)),
          projects := [("p1", { id := some "p1" })] }).1 = .errorInvalidSession ∧
    (processCachedUser scenarioEnv scenarioSessions none 24 1000000 scenarioCache
        { user_id := "C", total_count := 1,
          cached_at := some (.dtAware (1000000 - 3600)),
          projects := [("p1", { id := some "p1" })] }).1 = .skippedFresh ∧
    (processCachedUser scenarioEnv scenarioSessions none 24 1000000 scenarioCache
        { user_id := "D", total_count := 1,
          cached_at := some (.dtAware (1000000 - 90000)),
          projects := [("p1", { id := some "p1" })] }).1 = .refreshed := by
  refine ⟨rfl, rfl, rfl, rfl, rfl⟩

end RespondentPro
